import Mathlib

/-!
Verification of the Uniswap v3 bootstrap workflow (`src/index.ts`).

The script deploys two ERC20 tokens, creates and initializes a Uniswap v3
pool for them, grants allowances, mints a liquidity position and executes a
test swap, caching the bootstrap results in a JSON file.

We shallowly embed the script as pure Lean functions.  On-chain interaction
is modelled by a `World` record holding every value the chain (and the
external pool-math library) returns during a run, and each workflow phase
produces the list of chain `Action`s it issues, in program order, together
with its result (`Except` models `throw`).  JavaScript strings (addresses,
log data) are modelled as lists of UTF-16 code units (`List Nat`); JSON
decimal number strings are modelled as their digit lists.
-/

namespace UniswapSetup

/-- JavaScript `String.prototype.toLowerCase` on one ASCII code unit:
uppercase letters `A`..`Z` (codes 65..90) are shifted to lowercase. -/
def jsLower (c : Nat) : Nat :=
  if 65 ≤ c ∧ c ≤ 90 then c + 32 else c

/-- Case-normalise a JavaScript string (`s.toLowerCase()`). -/
def lowerCodes (s : List Nat) : List Nat :=
  s.map jsLower

/-- JavaScript `<` on strings: lexicographic comparison of code-unit
sequences, a strict prefix being smaller. -/
def lexLt : List Nat → List Nat → Bool
  | [], [] => false
  | [], _ :: _ => true
  | _ :: _, [] => false
  | a :: as, b :: bs => if a < b then true else if b < a then false else lexLt as bs

/-- UTF-16 code units of a Lean string literal (used for the address
constants of `src/index.ts`). -/
def strCodes (s : String) : List Nat :=
  s.data.map Char.toNat

/-- The two code units of the hex prefix `0x`. -/
def zeroX : List Nat := [48, 120]

/-- Decimal digit string printed by JavaScript `String(bigint)`, modelled
as the digit list, most significant digit first. -/
def bigintToString (n : Nat) : List Nat :=
  (Nat.digits 10 n).reverse

/-- viem `parseEther` applied to a plain decimal integer string (the only
shape this script ever passes): the denoted integer scaled by 10^18. -/
def parseEtherStr (ds : List Nat) : Nat :=
  Nat.ofDigits 10 ds.reverse * 10 ^ 18

/-- Token record as used in memory (`type Token`, `src/index.ts:89`). -/
structure Token where
  address : List Nat
  tokenName : String
  tokenSymbol : String
  tokenSupply : Nat
  deriving DecidableEq

/-- Token record as stored in `cache.json`: `tokenSupply` is kept as the
decimal string written by `String(tokenOne.tokenSupply)`. -/
structure CacheToken where
  address : List Nat
  tokenName : String
  tokenSymbol : String
  tokenSupply : List Nat
  deriving DecidableEq

/-- The persisted cache record `{tokenOne, tokenTwo, poolAddress}`. -/
structure Cache where
  tokenOne : Option CacheToken
  tokenTwo : Option CacheToken
  poolAddress : Option (List Nat)
  deriving DecidableEq

/-- Reload of a cached token record (`src/index.ts:271-286`): the spread
keeps address, name and symbol, and `tokenSupply` is re-parsed with
`parseEther(cache.tokenOne.tokenSupply)`. -/
def loadCachedToken (c : CacheToken) : Token :=
  { address := c.address
    tokenName := c.tokenName
    tokenSymbol := c.tokenSymbol
    tokenSupply := parseEtherStr c.tokenSupply }

/-- Token record as written by `saveCache` (`src/index.ts:342-352`):
`tokenSupply` is serialised with `String(tokenOne.tokenSupply)`. -/
def cacheTokenOf (t : Token) : CacheToken :=
  { address := t.address
    tokenName := t.tokenName
    tokenSymbol := t.tokenSymbol
    tokenSupply := bigintToString t.tokenSupply }

/-- Configuration constants of `src/index.ts:96-104`. -/
def token_one_name : String := "Pudgy"

def token_one_symbol : String := "PUDGY"

/-- `parseEther("1000")` (`src/index.ts:98`). -/
def token_one_supply : Nat := parseEtherStr [1, 0, 0, 0]

def token_two_name : String := "Penguin"

def token_two_symbol : String := "PENGUIN"

/-- `parseEther("1000")` (`src/index.ts:102`). -/
def token_two_supply : Nat := parseEtherStr [1, 0, 0, 0]

def pool_fee : Nat := 500

/-- Abstract testnet position-manager address (`src/index.ts:73`). -/
def NONFUNGIBLE_TOKEN_POSITION_MANAGER_ADDRESS : List Nat :=
  strCodes ("0x069f199763c045A294C7913E64bA80E5F362A5d7")

/-- Abstract testnet swap-router address (`src/index.ts:72`). -/
def SWAP_ROUTER_ADDRESS : List Nat :=
  strCodes ("0xb9D4347d129a83cBC40499Cd4fF223dE172a70dF")

/-- The spender list built at `src/index.ts:356-359`. -/
def contracts_list : List (List Nat) :=
  [NONFUNGIBLE_TOKEN_POSITION_MANAGER_ADDRESS, SWAP_ROUTER_ADDRESS]

/-- The pair-ordering step of `src/index.ts:328-331` and `363-366`:
`a.address.toLowerCase() < b.address.toLowerCase() ? [a, b] : [b, a]`. -/
def orderPair (a b : Token) : Token × Token :=
  if lexLt (lowerCodes a.address) (lowerCodes b.address) then (a, b) else (b, a)

/-- One event log entry of a transaction receipt; `data` is the hex string
payload, as code units (including its `0x` prefix). -/
structure Log where
  data : List Nat
  deriving DecidableEq

/-- Transaction receipt, restricted to the fields the script reads. -/
structure Receipt where
  contractAddress : Option (List Nat)
  logs : List Log
  deriving DecidableEq

/-- Check for one hexadecimal digit code unit (`0`-`9`, `a`-`f`, `A`-`F`). -/
def isHexDigitCode (c : Nat) : Bool :=
  (48 ≤ c && c ≤ 57) || (97 ≤ c && c ≤ 102) || (65 ≤ c && c ≤ 70)

/-- Format test of viem `getAddress`: `0x` followed by exactly 40 hex
digits. -/
def isHexAddress (s : List Nat) : Bool :=
  s.length = 42 && s.take 2 = zeroX && (s.drop 2).all isHexDigitCode

/-- viem `getAddress`: validates the `0x` + 40-hex-digit format (throwing
`InvalidAddressError` otherwise) and returns the EIP-55 checksummed form of
the address.  Checksumming only changes the case of hex letters, so the
returned address is modelled by its case-normalised (lowercase) form. -/
def getAddress (s : List Nat) : Except String (List Nat) :=
  if isHexAddress s then Except.ok (lowerCodes s) else Except.error ("InvalidAddressError")

/-- JavaScript `s.slice(-40)`: the final 40 code units (the whole string
when it is shorter). -/
def jsSliceLast40 (s : List Nat) : List Nat :=
  s.drop (s.length - 40)

/-- Pool-address resolution from the creation receipt
(`src/index.ts:180-187`): the receipt's `contractAddress` when present,
otherwise — when the first log exists and its `data` string is truthy
(non-empty) — `getAddress("0x" + receipt.logs[0].data.slice(-40))`,
otherwise `throw new Error("Pool address is not defined")`. -/
def resolvePoolAddress (r : Receipt) : Except String (List Nat) :=
  match r.contractAddress with
  | some a => Except.ok a
  | none =>
    match r.logs.head? with
    | some log =>
      if log.data.isEmpty then Except.error ("Pool address is not defined")
      else getAddress (zeroX ++ jsSliceLast40 log.data)
    | none => Except.error ("Pool address is not defined")

/-- The hardcoded `startingPrice = 1n` (`src/index.ts:193`). -/
def startingPrice : Nat := 1

/-- The value `BigInt(Math.floor(Math.sqrt(Number(startingPrice)) * 2 ** 96))`
computed at `src/index.ts:194-195`.  For the hardcoded `startingPrice = 1`
every step of the double-precision computation is exact (`Math.sqrt(1) = 1`
and `2 ** 96` is a representable power of two), so the value equals
`Nat.sqrt startingPrice * 2 ^ 96`. -/
def initSqrtPriceX96 : Nat := Nat.sqrt startingPrice * 2 ^ 96

/-- Which pool view function a `readContract` targets
(`src/index.ts:368-389`). -/
inductive PoolRead where
  | tickSpacing
  | fee
  | liquidity
  | slot0
  deriving DecidableEq

/-- One chain interaction issued by the workflow, in program order.
Transactions and reads are recorded with the arguments the script passes. -/
inductive Action where
  | deployContract (tokenName tokenSymbol : String) (tokenSupply : Nat)
  | factoryCreatePool (tokenA tokenB : List Nat) (fee : Nat)
  | initializePool (tokenA tokenB : List Nat) (fee : Nat) (sqrtPriceX96 : Nat)
  | readAllowance (token spender : List Nat)
  | approve (token spender : List Nat) (amount : Nat)
  | readPool (pool : Option (List Nat)) (fn : PoolRead)
  | mint (token0 token1 : List Nat) (tickLower tickUpper : Int)
  | quoteCall (amountIn : Nat)
  | swap (tokenIn tokenOut : List Nat) (amountIn : Nat)
  deriving DecidableEq

/-- `deployToken` (`src/index.ts:124-155`): submits the deployment, then
reads `receipt.contractAddress`, throwing when it is absent. -/
def deployToken (receipt : Receipt) (tokenName tokenSymbol : String)
    (tokenSupply : Nat) : List Action × Except String Token :=
  ([Action.deployContract tokenName tokenSymbol tokenSupply],
    match receipt.contractAddress with
    | some a =>
      Except.ok { address := a, tokenName := tokenName, tokenSymbol := tokenSymbol,
                  tokenSupply := tokenSupply }
    | none => Except.error ("Contract address is not defined"))

/-- `createPool` (`src/index.ts:157-220`): one factory `createPool`
transaction with `[tokenOne.address, tokenTwo.address, pool_fee]`, pool
address resolution from its receipt, then one
`createAndInitializePoolIfNecessary` transaction with
`[tokenOne.address, tokenTwo.address, pool_fee, sqrtPriceX96]`. -/
def createPool (tokenOne tokenTwo : Token) (receipt : Receipt) :
    List Action × Except String (List Nat) :=
  match resolvePoolAddress receipt with
  | Except.error e => ([Action.factoryCreatePool tokenOne.address tokenTwo.address pool_fee],
      Except.error e)
  | Except.ok poolAddr =>
    ([Action.factoryCreatePool tokenOne.address tokenTwo.address pool_fee,
      Action.initializePool tokenOne.address tokenTwo.address pool_fee initSqrtPriceX96],
      Except.ok poolAddr)

/-- The actions `giveAllowances` issues for one `(token, contract)` pair
(`src/index.ts:230-259`): an allowance read, then — exactly when the read
allowance is `0n` — one `approve(contract, token.tokenSupply)` transaction. -/
def allowancePairActions (allowance : List Nat → List Nat → Nat) (token : Token)
    (contract : List Nat) : List Action :=
  Action.readAllowance token.address contract ::
    (if allowance token.address contract = 0 then
      [Action.approve token.address contract token.tokenSupply]
    else [])

/-- `giveAllowances` (`src/index.ts:222-261`): the nested
`for token / for contract` loops. -/
def giveAllowances (allowance : List Nat → List Nat → Nat) (tokens : List Token)
    (contracts : List (List Nat)) : List Action :=
  tokens.flatMap fun token => contracts.flatMap fun contract =>
    allowancePairActions allowance token contract

/-- Position tick bounds (`src/index.ts:422-423`): given the value `nut`
returned by the external `nearestUsableTick(tick, tickSpacing)`, the bounds
are `nut - tickSpacing * 2` and `nut + tickSpacing * 2`. -/
def tickBounds (nut tickSpacing : Int) : Int × Int :=
  (nut - tickSpacing * 2, nut + tickSpacing * 2)

/-- Big-endian byte decoding used by `decodeAbiParameters` for a single
`uint256` (`src/index.ts:491-494`): the first 32 bytes of the return data,
read base 256. -/
def decodeUint256 (bs : List Nat) : Nat :=
  (bs.take 32).foldl (fun acc b => acc * 256 + b) 0

/-- The raw quote input amount of `src/index.ts:467-470`:
`String(parseEther(String(parseEther("1"))))` passed to
`CurrencyAmount.fromRawAmount`, i.e. `parseEther` applied twice to the
literal `"1"` with a decimal print in between. -/
def quoteInputAmount : Nat :=
  parseEtherStr (bigintToString (parseEtherStr [1]))

/-- Everything the chain and the external pool-math library return during
one run: the CLI flag, the loaded cache, the signer balance, the three
bootstrap receipts, the allowance view for each `(token, spender)` pair,
the pool state reads, the external `nearestUsableTick` value and the
quoter return data. -/
structure World where
  create : Bool
  cache : Cache
  ethBalance : Nat
  tokenOneReceipt : Receipt
  tokenTwoReceipt : Receipt
  poolReceipt : Receipt
  allowance : List Nat → List Nat → Nat
  tickSpacing : Int
  nut : Int
  quoteReturnData : Option (List Nat)

/-- The bootstrap branch body (`src/index.ts:311-352`): deploy both tokens,
order the pair canonically, create and initialize the pool. -/
def runBootstrap (w : World) :
    List Action × Except String (Token × Token × Option (List Nat)) :=
  let d1 := deployToken w.tokenOneReceipt token_one_name token_one_symbol token_one_supply
  match d1.2 with
  | Except.error e => (d1.1, Except.error e)
  | Except.ok t1 =>
    let d2 := deployToken w.tokenTwoReceipt token_two_name token_two_symbol token_two_supply
    match d2.2 with
    | Except.error e => (d1.1 ++ d2.1, Except.error e)
    | Except.ok t2 =>
      let p := orderPair t1 t2
      let cp := createPool p.1 p.2 w.poolReceipt
      match cp.2 with
      | Except.error e => (d1.1 ++ d2.1 ++ cp.1, Except.error e)
      | Except.ok pa => (d1.1 ++ d2.1 ++ cp.1, Except.ok (p.1, p.2, some pa))

/-- The bootstrap gate (`src/index.ts:310`): the branch runs iff
`create || !tokenOne || !tokenTwo`; otherwise the cached token records are
reloaded and the cached `poolAddress` (possibly absent) is used as is. -/
def bootstrapPhase (w : World) :
    List Action × Except String (Token × Token × Option (List Nat)) :=
  match w.create, w.cache.tokenOne, w.cache.tokenTwo with
  | false, some c1, some c2 =>
    ([], Except.ok (loadCachedToken c1, loadCachedToken c2, w.cache.poolAddress))
  | _, _, _ => runBootstrap w

/-- The whole of `main` (`src/index.ts:263-531`) as a chain-action trace:
balance guard, bootstrap gate, allowance loop, canonical reorder, the four
pool state reads, the mint, the quoter call and the final
`exactInputSingle` swap whose `amountIn` is the decoded quote result. -/
def mainTrace (w : World) : List Action × Except String Unit :=
  if w.ethBalance = 0 then ([], Except.error ("No ETH balance. Cant deploy"))
  else
    match bootstrapPhase w with
    | (btr, Except.error e) => (btr, Except.error e)
    | (btr, Except.ok (tokenOne, tokenTwo, poolAddress)) =>
      let allowTr := giveAllowances w.allowance [tokenOne, tokenTwo] contracts_list
      let p := orderPair tokenOne tokenTwo
      let poolReads := [Action.readPool poolAddress PoolRead.tickSpacing,
        Action.readPool poolAddress PoolRead.fee,
        Action.readPool poolAddress PoolRead.liquidity,
        Action.readPool poolAddress PoolRead.slot0]
      let tb := tickBounds w.nut w.tickSpacing
      let mintAct := Action.mint p.1.address p.2.address tb.1 tb.2
      match w.quoteReturnData with
      | none =>
        (btr ++ allowTr ++ poolReads ++ [mintAct, Action.quoteCall quoteInputAmount],
          Except.error ("Quote call return data is not defined"))
      | some d =>
        (btr ++ allowTr ++ poolReads ++
          [mintAct, Action.quoteCall quoteInputAmount,
            Action.swap p.1.address p.2.address (decodeUint256 d)],
          Except.ok ())

/-- Classifier for token-deployment transactions in a trace. -/
def isDeploy : Action → Bool
  | Action.deployContract _ _ _ => true
  | _ => false

/-- Classifier for factory `createPool` transactions in a trace. -/
def isFactoryCreate : Action → Bool
  | Action.factoryCreatePool _ _ _ => true
  | _ => false

/-- Classifier for pool-initialize transactions in a trace. -/
def isInitialize : Action → Bool
  | Action.initializePool _ _ _ _ => true
  | _ => false

/-- Classifier for approval transactions of one `(token, spender)` pair. -/
def isApproveFor (token spender : List Nat) : Action → Bool
  | Action.approve t s _ => decide (t = token) && decide (s = spender)
  | _ => false

/-- The token record produced by the first `deployToken` call when its
receipt carries address `a`. -/
def deployedTokenOne (a : List Nat) : Token :=
  { address := a, tokenName := token_one_name, tokenSymbol := token_one_symbol,
    tokenSupply := token_one_supply }

/-- The token record produced by the second `deployToken` call when its
receipt carries address `a`. -/
def deployedTokenTwo (a : List Nat) : Token :=
  { address := a, tokenName := token_two_name, tokenSymbol := token_two_symbol,
    tokenSupply := token_two_supply }

/-- Concrete cached token record used to exercise resume runs. -/
def sampleCacheOne : CacheToken :=
  { address := [97], tokenName := "Pudgy", tokenSymbol := "PUDGY",
    tokenSupply := [1, 0, 0, 0] }

/-- Second concrete cached token record used to exercise resume runs. -/
def sampleCacheTwo : CacheToken :=
  { address := [98], tokenName := "Penguin", tokenSymbol := "PENGUIN",
    tokenSupply := [1, 0, 0, 0] }

/-- Receipt with no contract address and no logs. -/
def sampleReceiptNone : Receipt := { contractAddress := none, logs := [] }

/-- Concrete bootstrap run: `--create` set, empty cache, receipts carrying
addresses, the first deployed address sorting after the second. -/
def sampleWorldC1 : World :=
  { create := true
    cache := { tokenOne := none, tokenTwo := none, poolAddress := none }
    ethBalance := 1
    tokenOneReceipt := { contractAddress := some [48, 120, 98, 98], logs := [] }
    tokenTwoReceipt := { contractAddress := some [48, 120, 97, 97], logs := [] }
    poolReceipt := { contractAddress := some [48, 120, 99, 99], logs := [] }
    allowance := fun _ _ => 0
    tickSpacing := 10
    nut := 0
    quoteReturnData := none }

/-- Concrete resume run: populated cache, no flag, all allowances set. -/
def sampleWorldC2 : World :=
  { create := false
    cache := { tokenOne := some sampleCacheOne, tokenTwo := some sampleCacheTwo,
               poolAddress := some [99] }
    ethBalance := 5
    tokenOneReceipt := sampleReceiptNone
    tokenTwoReceipt := sampleReceiptNone
    poolReceipt := sampleReceiptNone
    allowance := fun _ _ => 1
    tickSpacing := 10
    nut := 0
    quoteReturnData := some [7] }

/-- Concrete resume run used to follow the quoted amount into the swap. -/
def sampleWorldC8 : World :=
  { create := false
    cache := { tokenOne := some sampleCacheOne, tokenTwo := some sampleCacheTwo,
               poolAddress := some [99] }
    ethBalance := 5
    tokenOneReceipt := sampleReceiptNone
    tokenTwoReceipt := sampleReceiptNone
    poolReceipt := sampleReceiptNone
    allowance := fun _ _ => 1
    tickSpacing := 10
    nut := 0
    quoteReturnData := some [2, 3] }

/-- Concrete resume run whose cache has both token records but no pool
address. -/
def sampleWorldC10 : World :=
  { create := false
    cache := { tokenOne := some sampleCacheOne, tokenTwo := some sampleCacheTwo,
               poolAddress := none }
    ethBalance := 3
    tokenOneReceipt := sampleReceiptNone
    tokenTwoReceipt := sampleReceiptNone
    poolReceipt := sampleReceiptNone
    allowance := fun _ _ => 0
    tickSpacing := 10
    nut := 0
    quoteReturnData := none }

/-- Receipt with no contract address whose single log's data ends in the
40 hex digits of a known address. -/
def sampleReceiptC6 : Receipt :=
  { contractAddress := none
    logs := [{ data := zeroX ++ List.replicate 24 48 ++ List.replicate 40 97 }] }

/-- Receipt carrying a direct contract address. -/
def sampleReceiptC9 : Receipt := { contractAddress := some [1], logs := [] }

/-- Save-then-parse round trip of a JSON decimal number: printing a bigint
and re-reading it through `parseEther` scales it by 10^18. -/
theorem parseEtherStr_bigintToString (n : Nat) :
    parseEtherStr (bigintToString n) = n * 10 ^ 18 := by
  simp [parseEtherStr, bigintToString, Nat.ofDigits_digits]

/-- JavaScript string `<` is asymmetric. -/
theorem lexLt_asymm {x y : List Nat} (h : lexLt x y = true) : lexLt y x = false := by
  induction x generalizing y with
  | nil =>
    cases y with
    | nil => simp [lexLt] at h
    | cons b bs => simp [lexLt]
  | cons a as ih =>
    cases y with
    | nil => simp [lexLt] at h
    | cons b bs =>
      rcases Nat.lt_trichotomy a b with hab | hab | hab
      · simp [lexLt, hab, Nat.lt_asymm hab]
      · subst hab
        simp only [lexLt, Nat.lt_irrefl, if_false] at h ⊢
        exact ih h
      · simp [lexLt, hab, Nat.lt_asymm hab] at h

/-- JavaScript string `<` is total on distinct strings. -/
theorem lexLt_of_ne {x y : List Nat} (h : x ≠ y) :
    lexLt x y = true ∨ lexLt y x = true := by
  induction x generalizing y with
  | nil =>
    cases y with
    | nil => exact absurd rfl h
    | cons b bs => left; simp [lexLt]
  | cons a as ih =>
    cases y with
    | nil => right; simp [lexLt]
    | cons b bs =>
      rcases Nat.lt_trichotomy a b with hab | hab | hab
      · left; simp [lexLt, hab]
      · subst hab
        have hne : as ≠ bs := fun hh => h (by rw [hh])
        rcases ih hne with h1 | h1
        · left; simp [lexLt, Nat.lt_irrefl, h1]
        · right; simp [lexLt, Nat.lt_irrefl, h1]
      · right; simp [lexLt, hab, Nat.lt_asymm hab]

/-- The pair-ordering ternary is symmetric on case-insensitively distinct
addresses. -/
theorem orderPair_comm {a b : Token}
    (h : lowerCodes a.address ≠ lowerCodes b.address) :
    orderPair a b = orderPair b a := by
  unfold orderPair
  rcases lexLt_of_ne h with h1 | h1
  · simp [h1, lexLt_asymm h1]
  · simp [h1, lexLt_asymm h1]

/-- The pair-ordering ternary puts the case-insensitively smaller address
first. -/
theorem orderPair_fst_lt {a b : Token}
    (h : lowerCodes a.address ≠ lowerCodes b.address) :
    lexLt (lowerCodes (orderPair a b).1.address)
      (lowerCodes (orderPair a b).2.address) = true := by
  unfold orderPair
  rcases lexLt_of_ne h with h1 | h1
  · simp [h1]
  · simp [h1, lexLt_asymm h1]

/-- Approval count contributed by one `(token, contract)` iteration of the
allowance loop. -/
theorem countP_allowancePairActions (a : List Nat → List Nat → Nat) (tok : Token)
    (tAddr c c' : List Nat) :
    List.countP (isApproveFor tAddr c) (allowancePairActions a tok c') =
      if tok.address = tAddr ∧ c' = c ∧ a tok.address c' = 0 then 1 else 0 := by
  unfold allowancePairActions
  by_cases h0 : a tok.address c' = 0
  · rw [if_pos h0]
    by_cases h1 : tok.address = tAddr
    · by_cases h2 : c' = c
      · rw [if_pos ⟨h1, h2, h0⟩]
        simp [isApproveFor, List.countP_cons, h1, h2]
      · rw [if_neg (by tauto)]
        simp [isApproveFor, List.countP_cons, h2]
    · rw [if_neg (by tauto)]
      simp [isApproveFor, List.countP_cons, h1]
  · rw [if_neg h0, if_neg (by tauto)]
    simp [isApproveFor, List.countP_cons]

/-- A contract never visited contributes no approvals for it. -/
theorem countP_inner_not_mem (a : List Nat → List Nat → Nat) (tok : Token)
    (tAddr c : List Nat) (cs : List (List Nat)) (hc : c ∉ cs) :
    List.countP (isApproveFor tAddr c)
      (cs.flatMap (allowancePairActions a tok)) = 0 := by
  induction cs with
  | nil => simp
  | cons c' cs ih =>
    simp only [List.flatMap_cons, List.countP_append, countP_allowancePairActions]
    have hne : ¬c' = c := fun hh => hc (hh ▸ List.mem_cons_self c' cs)
    simp [hne, ih (fun hh => hc (List.mem_cons_of_mem c' hh))]

/-- A token with a different address contributes no approvals for the
target pair. -/
theorem countP_inner_ne (a : List Nat → List Nat → Nat) (tok : Token)
    (tAddr c : List Nat) (cs : List (List Nat)) (h : tok.address ≠ tAddr) :
    List.countP (isApproveFor tAddr c)
      (cs.flatMap (allowancePairActions a tok)) = 0 := by
  induction cs with
  | nil => simp
  | cons c' cs ih =>
    simp only [List.flatMap_cons, List.countP_append, countP_allowancePairActions]
    simp [h, ih]

/-- Approval count of one token's inner contract loop at a visited
contract. -/
theorem countP_inner (a : List Nat → List Nat → Nat) (tok : Token) (c : List Nat)
    (cs : List (List Nat)) (hnd : cs.Nodup) (hc : c ∈ cs) :
    List.countP (isApproveFor tok.address c)
      (cs.flatMap (allowancePairActions a tok)) =
      if a tok.address c = 0 then 1 else 0 := by
  induction cs with
  | nil => simp at hc
  | cons c' cs ih =>
    simp only [List.flatMap_cons, List.countP_append, countP_allowancePairActions]
    rcases List.mem_cons.mp hc with hcc | hcc
    · subst hcc
      have hnotin : c ∉ cs := (List.nodup_cons.mp hnd).1
      rw [countP_inner_not_mem a tok tok.address c cs hnotin]
      simp
    · have hne : ¬c' = c := by
        intro hh
        exact (List.nodup_cons.mp hnd).1 (hh ▸ hcc)
      rw [ih (List.nodup_cons.mp hnd).2 hcc]
      simp [hne]

/-- Tokens whose addresses all differ from the target contribute no
approvals for the target pair. -/
theorem countP_outer_zero (a : List Nat → List Nat → Nat) (tAddr c : List Nat)
    (ts : List Token) (cs : List (List Nat)) (h : ∀ t ∈ ts, t.address ≠ tAddr) :
    List.countP (isApproveFor tAddr c) (giveAllowances a ts cs) = 0 := by
  induction ts with
  | nil => simp [giveAllowances]
  | cons t ts ih =>
    simp only [giveAllowances, List.flatMap_cons, List.countP_append]
    rw [countP_inner_ne a t tAddr c cs (h t (List.mem_cons_self t ts))]
    simpa [giveAllowances] using ih fun t' ht' => h t' (List.mem_cons_of_mem t ht')

/-- Every approval action in the allowance trace approves some listed
token's full supply for its address. -/
theorem approve_mem_giveAllowances {a : List Nat → List Nat → Nat}
    {ts : List Token} {cs : List (List Nat)} {tAddr c : List Nat} {amt : Nat}
    (h : Action.approve tAddr c amt ∈ giveAllowances a ts cs) :
    ∃ t, t ∈ ts ∧ t.address = tAddr ∧ amt = t.tokenSupply := by
  simp only [giveAllowances, List.mem_flatMap] at h
  obtain ⟨t, ht, c', _, hmem⟩ := h
  refine ⟨t, ht, ?_⟩
  unfold allowancePairActions at hmem
  rcases List.mem_cons.mp hmem with hh | hh
  · exact absurd hh (by simp)
  · by_cases h0 : a t.address c' = 0
    · rw [if_pos h0] at hh
      rcases List.mem_singleton.mp hh with hh2
      cases hh2
      exact ⟨rfl, rfl⟩
    · rw [if_neg h0] at hh
      simp at hh

/-- The allowance loop issues only allowance reads and approvals. -/
theorem giveAllowances_countP_zero (p : Action → Bool)
    (hr : ∀ t s, p (Action.readAllowance t s) = false)
    (ha : ∀ t s amt, p (Action.approve t s amt) = false)
    (a : List Nat → List Nat → Nat) (ts : List Token) (cs : List (List Nat)) :
    List.countP p (giveAllowances a ts cs) = 0 := by
  rw [List.countP_eq_zero]
  intro act hact
  simp only [giveAllowances, List.mem_flatMap] at hact
  obtain ⟨t, _, c', _, hmem⟩ := hact
  unfold allowancePairActions at hmem
  rcases List.mem_cons.mp hmem with hh | hh
  · subst hh; simp [hr]
  · by_cases h0 : a t.address c' = 0
    · rw [if_pos h0] at hh
      rcases List.mem_singleton.mp hh with hh2
      subst hh2; simp [ha]
    · rw [if_neg h0] at hh
      simp at hh

/-- The bootstrap branch always issues a token deployment first,
whatever the receipts hold. -/
theorem runBootstrap_any_deploy (w : World) :
    (runBootstrap w).1.any isDeploy = true := by
  unfold runBootstrap deployToken
  cases w.tokenOneReceipt.contractAddress with
  | none => simp [isDeploy]
  | some a1 =>
    cases w.tokenTwoReceipt.contractAddress with
    | none => simp [isDeploy]
    | some a2 =>
      cases hcp : (createPool
          (orderPair
            { address := a1, tokenName := token_one_name,
              tokenSymbol := token_one_symbol, tokenSupply := token_one_supply }
            { address := a2, tokenName := token_two_name,
              tokenSymbol := token_two_symbol, tokenSupply := token_two_supply }).1
          (orderPair
            { address := a1, tokenName := token_one_name,
              tokenSymbol := token_one_symbol, tokenSupply := token_one_supply }
            { address := a2, tokenName := token_two_name,
              tokenSymbol := token_two_symbol, tokenSupply := token_two_supply }).2
          w.poolReceipt).2 with
      | error e => simp [hcp, isDeploy]
      | ok pa => simp [hcp, isDeploy]

/-- C1: the pair-ordering step is symmetric on case-insensitively distinct
token addresses and always puts the case-insensitively lexicographically
smaller address first; and in a bootstrap run whose receipts resolve, the
factory `createPool` transaction and the pool-initialize transaction both
receive the token addresses of the ordered pair, whichever order the tokens
were deployed in. -/
theorem c1_canonical_pair_ordering (a b : Token) (w : World) (a1 a2 pa : List Nat)
    (hab : lowerCodes a.address ≠ lowerCodes b.address)
    (h1 : w.tokenOneReceipt.contractAddress = some a1)
    (h2 : w.tokenTwoReceipt.contractAddress = some a2)
    (hpool : resolvePoolAddress w.poolReceipt = Except.ok pa) :
    orderPair a b = orderPair b a ∧
    lexLt (lowerCodes (orderPair a b).1.address)
      (lowerCodes (orderPair a b).2.address) = true ∧
    (runBootstrap w).1 =
      [Action.deployContract token_one_name token_one_symbol token_one_supply,
        Action.deployContract token_two_name token_two_symbol token_two_supply,
        Action.factoryCreatePool
          (orderPair (deployedTokenOne a1) (deployedTokenTwo a2)).1.address
          (orderPair (deployedTokenOne a1) (deployedTokenTwo a2)).2.address pool_fee,
        Action.initializePool
          (orderPair (deployedTokenOne a1) (deployedTokenTwo a2)).1.address
          (orderPair (deployedTokenOne a1) (deployedTokenTwo a2)).2.address pool_fee
          initSqrtPriceX96] := by
  refine ⟨orderPair_comm hab, orderPair_fst_lt hab, ?_⟩
  unfold runBootstrap deployToken createPool
  rw [h1, h2]
  simp only [deployedTokenOne, deployedTokenTwo]
  rw [hpool]
  simp

/-- C1 witness: a concrete bootstrap run in which the tokens were deployed
in descending address order. -/
theorem c1_canonical_pair_ordering_witness :
    orderPair (deployedTokenOne [48, 120, 98, 98]) (deployedTokenTwo [48, 120, 97, 97]) =
      orderPair (deployedTokenTwo [48, 120, 97, 97]) (deployedTokenOne [48, 120, 98, 98]) ∧
    lexLt
      (lowerCodes
        (orderPair (deployedTokenOne [48, 120, 98, 98])
            (deployedTokenTwo [48, 120, 97, 97])).1.address)
      (lowerCodes
        (orderPair (deployedTokenOne [48, 120, 98, 98])
            (deployedTokenTwo [48, 120, 97, 97])).2.address) = true ∧
    (runBootstrap sampleWorldC1).1 =
      [Action.deployContract token_one_name token_one_symbol token_one_supply,
        Action.deployContract token_two_name token_two_symbol token_two_supply,
        Action.factoryCreatePool
          (orderPair (deployedTokenOne [48, 120, 98, 98])
              (deployedTokenTwo [48, 120, 97, 97])).1.address
          (orderPair (deployedTokenOne [48, 120, 98, 98])
              (deployedTokenTwo [48, 120, 97, 97])).2.address pool_fee,
        Action.initializePool
          (orderPair (deployedTokenOne [48, 120, 98, 98])
              (deployedTokenTwo [48, 120, 97, 97])).1.address
          (orderPair (deployedTokenOne [48, 120, 98, 98])
              (deployedTokenTwo [48, 120, 97, 97])).2.address pool_fee
          initSqrtPriceX96] :=
  c1_canonical_pair_ordering (deployedTokenOne [48, 120, 98, 98])
    (deployedTokenTwo [48, 120, 97, 97]) sampleWorldC1
    [48, 120, 98, 98] [48, 120, 97, 97] [48, 120, 99, 99]
    (by decide) rfl rfl rfl

/-- C3: the raw amount the swap quote is requested for.  The spec claims one
whole unit of the input token, 10^18 raw units; the code applies
`parseEther` twice to `"1"` (`src/index.ts:469`, flagged by its own TODO
comment), yielding 10^36 raw units. -/
theorem c3_quote_input_is_ten_pow_36 :
    quoteInputAmount = 10 ^ 36 ∧ quoteInputAmount ≠ 10 ^ 18 := by
  have h1 : parseEtherStr [1] = 10 ^ 18 := by
    norm_num [parseEtherStr, Nat.ofDigits_cons, Nat.ofDigits_nil]
  have h2 : quoteInputAmount = 10 ^ 36 := by
    rw [quoteInputAmount, h1, parseEtherStr_bigintToString]
    norm_num
  exact ⟨h2, by rw [h2]; norm_num⟩

/-- C4: a save-then-load round trip of a token record multiplies the
in-memory supply by 10^18 — `saveCache` writes the raw decimal string and
the loader re-applies `parseEther` to it. -/
theorem c4_cache_supply_roundtrip (t : Token) :
    (loadCachedToken (cacheTokenOf t)).tokenSupply = t.tokenSupply * 10 ^ 18 ∧
    (t.tokenSupply ≠ 0 →
      (loadCachedToken (cacheTokenOf t)).tokenSupply ≠ t.tokenSupply) := by
  have h : (loadCachedToken (cacheTokenOf t)).tokenSupply = t.tokenSupply * 10 ^ 18 := by
    simp [loadCachedToken, cacheTokenOf, parseEtherStr_bigintToString]
  refine ⟨h, fun h0 heq => ?_⟩
  rw [h] at heq
  have h18 : (10 : Nat) ^ 18 = 1 :=
    Nat.eq_of_mul_eq_mul_left (Nat.pos_of_ne_zero h0)
      (heq.trans (Nat.mul_one t.tokenSupply).symm)
  norm_num at h18

/-- C4 witness: a token record with supply 7 reloads as 7·10^18. -/
theorem c4_cache_supply_roundtrip_witness :
    (loadCachedToken (cacheTokenOf
      { address := [], tokenName := "T", tokenSymbol := "T",
        tokenSupply := 7 })).tokenSupply = 7 * 10 ^ 18 ∧
    (loadCachedToken (cacheTokenOf
      { address := [], tokenName := "T", tokenSymbol := "T",
        tokenSupply := 7 })).tokenSupply ≠ 7 :=
  ⟨(c4_cache_supply_roundtrip _).1, (c4_cache_supply_roundtrip _).2 (by decide)⟩

/-- C7: the computed position bounds span exactly `4 * tickSpacing` and,
when the external `nearestUsableTick` result is a multiple of the spacing,
both bounds are multiples of the spacing. -/
theorem c7_tick_range_symmetry (nut s : Int) :
    (tickBounds nut s).2 - (tickBounds nut s).1 = 4 * s ∧
    (s ∣ nut → s ∣ (tickBounds nut s).1 ∧ s ∣ (tickBounds nut s).2) := by
  constructor
  · simp only [tickBounds]
    ring
  · intro h
    exact ⟨dvd_sub h (dvd_mul_right s 2), dvd_add h (dvd_mul_right s 2)⟩

/-- C7 witness: spacing 5, nearest usable tick 10. -/
theorem c7_tick_range_symmetry_witness :
    (tickBounds 10 5).2 - (tickBounds 10 5).1 = 4 * 5 ∧
    ((5 : Int) ∣ (tickBounds 10 5).1 ∧ (5 : Int) ∣ (tickBounds 10 5).2) :=
  ⟨(c7_tick_range_symmetry 10 5).1,
    (c7_tick_range_symmetry 10 5).2 (by norm_num)⟩

/-- C9: the computed `sqrtPriceX96` equals `floor(sqrt(1)) * 2^96 = 2^96`
for the hardcoded starting ratio of 1, and the initialize transaction is
issued with exactly that value. -/
theorem c9_init_sqrt_price (t1 t2 : Token) (r : Receipt) (pa : List Nat)
    (h : resolvePoolAddress r = Except.ok pa) :
    initSqrtPriceX96 = 2 ^ 96 ∧
    (createPool t1 t2 r).1 =
      [Action.factoryCreatePool t1.address t2.address pool_fee,
        Action.initializePool t1.address t2.address pool_fee (2 ^ 96)] := by
  have hv : initSqrtPriceX96 = 2 ^ 96 := by
    simp [initSqrtPriceX96, startingPrice]
  refine ⟨hv, ?_⟩
  unfold createPool
  rw [h, hv]

/-- C9 witness: a resolving receipt yields an initialize call with 2^96. -/
theorem c9_init_sqrt_price_witness :
    initSqrtPriceX96 = 2 ^ 96 ∧
    (createPool
        { address := [2], tokenName := "A", tokenSymbol := "A", tokenSupply := 1 }
        { address := [3], tokenName := "B", tokenSymbol := "B", tokenSupply := 1 }
        sampleReceiptC9).1 =
      [Action.factoryCreatePool [2] [3] pool_fee,
        Action.initializePool [2] [3] pool_fee (2 ^ 96)] :=
  c9_init_sqrt_price _ _ sampleReceiptC9 [1] rfl

/-- Full approval count of the allowance loop for one visited pair. -/
theorem countP_giveAllowances (a : List Nat → List Nat → Nat) (tok : Token)
    (c : List Nat) :
    ∀ tokens : List Token, tok ∈ tokens → (tokens.map Token.address).Nodup →
    ∀ contracts : List (List Nat), c ∈ contracts → contracts.Nodup →
    List.countP (isApproveFor tok.address c) (giveAllowances a tokens contracts) =
      if a tok.address c = 0 then 1 else 0 := by
  intro tokens
  induction tokens with
  | nil => intro h; simp at h
  | cons t ts ih =>
    intro htok hnd contracts hc hndc
    have hnd2 : (t.address :: ts.map Token.address).Nodup := by simpa using hnd
    simp only [giveAllowances, List.flatMap_cons, List.countP_append]
    rcases List.mem_cons.mp htok with htt | htt
    · subst htt
      rw [countP_inner a tok c contracts hndc hc]
      have hrest : ∀ t' ∈ ts, t'.address ≠ tok.address := by
        intro t' ht' heq
        exact (List.nodup_cons.mp hnd2).1
          (heq ▸ List.mem_map_of_mem Token.address ht')
      have hzero :
          List.countP (isApproveFor tok.address c)
            (ts.flatMap fun token => contracts.flatMap fun contract =>
              allowancePairActions a token contract) = 0 := by
        have := countP_outer_zero a tok.address c ts contracts hrest
        simpa [giveAllowances] using this
      rw [hzero]
      simp
    · have hne : t.address ≠ tok.address := by
        intro heq
        exact (List.nodup_cons.mp hnd2).1
          (heq ▸ List.mem_map_of_mem Token.address htt)
      rw [countP_inner_ne a t tok.address c contracts hne]
      have := ih htt (List.nodup_cons.mp hnd2).2 contracts hc hndc
      simpa [giveAllowances] using this

/-- C5: for every `(token, spender)` pair visited by the allowance step
(with distinct token addresses and distinct spenders): a nonzero read
allowance yields no approval transaction for the pair, a zero read
allowance yields exactly one, and any approval for the pair grants exactly
the token's total supply. -/
theorem c5_allowance_idempotence (a : List Nat → List Nat → Nat)
    (tokens : List Token) (contracts : List (List Nat)) (tok : Token) (c : List Nat)
    (htok : tok ∈ tokens) (hc : c ∈ contracts)
    (hnd : (tokens.map Token.address).Nodup) (hndc : contracts.Nodup) :
    List.countP (isApproveFor tok.address c) (giveAllowances a tokens contracts) =
      (if a tok.address c = 0 then 1 else 0) ∧
    ∀ amt, Action.approve tok.address c amt ∈ giveAllowances a tokens contracts →
      amt = tok.tokenSupply := by
  refine ⟨countP_giveAllowances a tok c tokens htok hnd contracts hc hndc, ?_⟩
  intro amt hmem
  obtain ⟨t', ht', haddr, hamt⟩ := approve_mem_giveAllowances hmem
  have heq : t' = tok := List.inj_on_of_nodup_map hnd ht' htok haddr
  rw [hamt, heq]

/-- C5 witness: one token, the two real spenders; the position-manager
allowance reads zero (one approval of the full supply), the router
allowance reads nonzero (no approval). -/
theorem c5_allowance_idempotence_witness :
    List.countP (isApproveFor [1] NONFUNGIBLE_TOKEN_POSITION_MANAGER_ADDRESS)
      (giveAllowances (fun _ s => if s = SWAP_ROUTER_ADDRESS then 1 else 0)
        [{ address := [1], tokenName := "A", tokenSymbol := "A", tokenSupply := 55 }]
        contracts_list) = 1 ∧
    List.countP (isApproveFor [1] SWAP_ROUTER_ADDRESS)
      (giveAllowances (fun _ s => if s = SWAP_ROUTER_ADDRESS then 1 else 0)
        [{ address := [1], tokenName := "A", tokenSymbol := "A", tokenSupply := 55 }]
        contracts_list) = 0 ∧
    ∀ amt, Action.approve [1] NONFUNGIBLE_TOKEN_POSITION_MANAGER_ADDRESS amt ∈
        giveAllowances (fun _ s => if s = SWAP_ROUTER_ADDRESS then 1 else 0)
          [{ address := [1], tokenName := "A", tokenSymbol := "A", tokenSupply := 55 }]
          contracts_list →
      amt = 55 := by
  have h1 := c5_allowance_idempotence
    (fun _ s => if s = SWAP_ROUTER_ADDRESS then 1 else 0)
    [{ address := [1], tokenName := "A", tokenSymbol := "A", tokenSupply := 55 }]
    contracts_list
    { address := [1], tokenName := "A", tokenSymbol := "A", tokenSupply := 55 }
    NONFUNGIBLE_TOKEN_POSITION_MANAGER_ADDRESS
    (by simp) (by simp [contracts_list]) (by simp) (by decide)
  have h2 := c5_allowance_idempotence
    (fun _ s => if s = SWAP_ROUTER_ADDRESS then 1 else 0)
    [{ address := [1], tokenName := "A", tokenSymbol := "A", tokenSupply := 55 }]
    contracts_list
    { address := [1], tokenName := "A", tokenSymbol := "A", tokenSupply := 55 }
    SWAP_ROUTER_ADDRESS
    (by simp) (by simp [contracts_list]) (by simp) (by decide)
  refine ⟨?_, ?_, h1.2⟩
  · rw [h1.1]
    decide
  · rw [h2.1]
    decide

/-- C6: pool-address resolution returns a direct contract address when the
receipt has one; with no contract address but a first log whose data ends
in 40 hex digits, it returns the address formed from those final 20 bytes;
with neither source present it fails with the pool-resolution error. -/
theorem c6_pool_address_resolution (r : Receipt) (ca pre x : List Nat)
    (rest : List Log) :
    (r.contractAddress = some ca → resolvePoolAddress r = Except.ok ca) ∧
    (r.contractAddress = none →
      r.logs = { data := zeroX ++ pre ++ x } :: rest →
      x.length = 40 → x.all isHexDigitCode = true →
      resolvePoolAddress r = Except.ok (lowerCodes (zeroX ++ x))) ∧
    (r.contractAddress = none →
      (r.logs = [] ∨ ∃ rs, r.logs = { data := [] } :: rs) →
      resolvePoolAddress r = Except.error ("Pool address is not defined")) := by
  refine ⟨?_, ?_, ?_⟩
  · intro hca
    unfold resolvePoolAddress
    rw [hca]
  · intro hca hlogs hlen hhex
    have hslice : jsSliceLast40 (zeroX ++ pre ++ x) = x := by
      unfold jsSliceLast40
      have hlen2 : (zeroX ++ pre ++ x).length - 40 = (zeroX ++ pre).length := by
        simp only [List.length_append, hlen]
        omega
      rw [hlen2, List.drop_left]
    have hvalid : isHexAddress (zeroX ++ x) = true := by
      simp [isHexAddress, zeroX, hlen, hhex]
    have hempty : (zeroX ++ pre ++ x).isEmpty = false := by
      simp [zeroX]
    unfold resolvePoolAddress
    rw [hca, hlogs]
    show (if (zeroX ++ pre ++ x).isEmpty = true
        then Except.error ("Pool address is not defined")
        else getAddress (zeroX ++ jsSliceLast40 (zeroX ++ pre ++ x))) =
      Except.ok (lowerCodes (zeroX ++ x))
    rw [if_neg (show ¬(zeroX ++ pre ++ x).isEmpty = true from
      fun h => Bool.false_ne_true (hempty ▸ h))]
    rw [hslice]
    unfold getAddress
    rw [if_pos hvalid]
  · intro hca hcase
    unfold resolvePoolAddress
    rcases hcase with hnil | ⟨rs, hcons⟩
    · rw [hca, hnil]
      exact rfl
    · rw [hca, hcons]
      exact rfl

/-- C6 witness: a receipt with no contract address whose first log data
ends in the 40 hex digits `aa…a` resolves to that address. -/
theorem c6_pool_address_resolution_witness :
    resolvePoolAddress sampleReceiptC6 =
      Except.ok (lowerCodes (zeroX ++ List.replicate 40 97)) :=
  (c6_pool_address_resolution sampleReceiptC6 [] (List.replicate 24 48)
      (List.replicate 40 97) []).2.1 rfl rfl (by decide) (by decide)

/-- Full trace of a resume run (populated cache, no flag): the allowance
loop, the four pool reads against the cached pool address, the mint, the
quoter call, and — when the quoter returns data — the swap. -/
theorem mainTrace_resume (w : World) (cc1 cc2 : CacheToken)
    (hcr : w.create = false) (h1 : w.cache.tokenOne = some cc1)
    (h2 : w.cache.tokenTwo = some cc2) (hbal : w.ethBalance ≠ 0) :
    (mainTrace w).1 =
      giveAllowances w.allowance [loadCachedToken cc1, loadCachedToken cc2]
        contracts_list ++
      ([Action.readPool w.cache.poolAddress PoolRead.tickSpacing,
        Action.readPool w.cache.poolAddress PoolRead.fee,
        Action.readPool w.cache.poolAddress PoolRead.liquidity,
        Action.readPool w.cache.poolAddress PoolRead.slot0,
        Action.mint
          (orderPair (loadCachedToken cc1) (loadCachedToken cc2)).1.address
          (orderPair (loadCachedToken cc1) (loadCachedToken cc2)).2.address
          (tickBounds w.nut w.tickSpacing).1 (tickBounds w.nut w.tickSpacing).2,
        Action.quoteCall quoteInputAmount] ++
        (match w.quoteReturnData with
          | none => []
          | some d =>
            [Action.swap
              (orderPair (loadCachedToken cc1) (loadCachedToken cc2)).1.address
              (orderPair (loadCachedToken cc1) (loadCachedToken cc2)).2.address
              (decodeUint256 d)])) := by
  have hb : bootstrapPhase w =
      ([], Except.ok (loadCachedToken cc1, loadCachedToken cc2, w.cache.poolAddress)) := by
    unfold bootstrapPhase
    rw [hcr, h1, h2]
  unfold mainTrace
  rw [if_neg hbal, hb]
  cases hq : w.quoteReturnData with
  | none => simp
  | some d => simp

/-- C2: in a resume run (both token records cached, no `--create` flag, a
funded signer) the workflow issues no deployment, no factory `createPool`
and no pool-initialize transaction, and the trace starts with the
allowance phase. -/
theorem c2_idempotent_resume (w : World) (cc1 cc2 : CacheToken)
    (hcr : w.create = false) (h1 : w.cache.tokenOne = some cc1)
    (h2 : w.cache.tokenTwo = some cc2) (hbal : w.ethBalance ≠ 0) :
    List.countP isDeploy (mainTrace w).1 = 0 ∧
    List.countP isFactoryCreate (mainTrace w).1 = 0 ∧
    List.countP isInitialize (mainTrace w).1 = 0 ∧
    ∃ rest, (mainTrace w).1 =
      giveAllowances w.allowance [loadCachedToken cc1, loadCachedToken cc2]
        contracts_list ++ rest := by
  rw [mainTrace_resume w cc1 cc2 hcr h1 h2 hbal]
  refine ⟨?_, ?_, ?_, ⟨_, rfl⟩⟩
  · rw [List.countP_append,
      giveAllowances_countP_zero isDeploy (fun _ _ => rfl) (fun _ _ _ => rfl)]
    cases w.quoteReturnData <;> simp [isDeploy]
  · rw [List.countP_append,
      giveAllowances_countP_zero isFactoryCreate (fun _ _ => rfl) (fun _ _ _ => rfl)]
    cases w.quoteReturnData <;> simp [isFactoryCreate]
  · rw [List.countP_append,
      giveAllowances_countP_zero isInitialize (fun _ _ => rfl) (fun _ _ _ => rfl)]
    cases w.quoteReturnData <;> simp [isInitialize]

/-- C2 witness: a concrete resume run issues none of the bootstrap
transactions and proceeds to the allowance phase. -/
theorem c2_idempotent_resume_witness :
    List.countP isDeploy (mainTrace sampleWorldC2).1 = 0 ∧
    List.countP isFactoryCreate (mainTrace sampleWorldC2).1 = 0 ∧
    List.countP isInitialize (mainTrace sampleWorldC2).1 = 0 ∧
    ∃ rest, (mainTrace sampleWorldC2).1 =
      giveAllowances sampleWorldC2.allowance
        [loadCachedToken sampleCacheOne, loadCachedToken sampleCacheTwo]
        contracts_list ++ rest :=
  c2_idempotent_resume sampleWorldC2 sampleCacheOne sampleCacheTwo
    rfl rfl rfl (by decide)

/-- C8: when the quoter return data decodes to the uint256 value `V`, the
final `exactInputSingle` swap transaction is issued with `amountIn` equal
to `V` exactly. -/
theorem c8_swap_amount_from_quote (w : World) (btr : List Action) (t1 t2 : Token)
    (pa : Option (List Nat)) (d : List Nat) (V : Nat)
    (hbal : w.ethBalance ≠ 0)
    (hb : bootstrapPhase w = (btr, Except.ok (t1, t2, pa)))
    (hq : w.quoteReturnData = some d)
    (hV : decodeUint256 d = V) :
    ∃ l, (mainTrace w).1 =
      l ++ [Action.swap (orderPair t1 t2).1.address (orderPair t1 t2).2.address V] := by
  refine ⟨btr ++ giveAllowances w.allowance [t1, t2] contracts_list ++
    [Action.readPool pa PoolRead.tickSpacing, Action.readPool pa PoolRead.fee,
      Action.readPool pa PoolRead.liquidity, Action.readPool pa PoolRead.slot0,
      Action.mint (orderPair t1 t2).1.address (orderPair t1 t2).2.address
        (tickBounds w.nut w.tickSpacing).1 (tickBounds w.nut w.tickSpacing).2,
      Action.quoteCall quoteInputAmount], ?_⟩
  subst hV
  unfold mainTrace
  rw [if_neg hbal, hb, hq]
  simp

/-- C8 witness: quoter data decoding to 515 yields a swap with
`amountIn = 515`. -/
theorem c8_swap_amount_from_quote_witness :
    ∃ l, (mainTrace sampleWorldC8).1 =
      l ++ [Action.swap
        (orderPair (loadCachedToken sampleCacheOne)
          (loadCachedToken sampleCacheTwo)).1.address
        (orderPair (loadCachedToken sampleCacheOne)
          (loadCachedToken sampleCacheTwo)).2.address 515] :=
  c8_swap_amount_from_quote sampleWorldC8 []
    (loadCachedToken sampleCacheOne) (loadCachedToken sampleCacheTwo)
    (some [99]) [2, 3] 515 (by decide) rfl rfl (by decide)

/-- C10: the bootstrap branch is taken iff the `--create` flag is present
or a token record is absent from the cache; the cached `poolAddress` is
never part of the decision; and a run with both token records cached but
no pool address skips bootstrap and issues its pool state reads against
the undefined (absent) pool address. -/
theorem c10_bootstrap_gate (w : World) (cc1 cc2 : CacheToken) :
    ((bootstrapPhase w).1.any isDeploy =
      (w.create || w.cache.tokenOne.isNone || w.cache.tokenTwo.isNone)) ∧
    (∀ pa, (bootstrapPhase
        { w with cache := { w.cache with poolAddress := pa } }).1 =
      (bootstrapPhase w).1) ∧
    (w.create = false → w.cache.tokenOne = some cc1 →
      w.cache.tokenTwo = some cc2 → w.cache.poolAddress = none →
      w.ethBalance ≠ 0 →
      Action.readPool none PoolRead.tickSpacing ∈ (mainTrace w).1) := by
  refine ⟨?_, ?_, ?_⟩
  · obtain ⟨cr, ⟨co, ct, cp⟩, bal, r1, r2, rp, al, ts, nu, qd⟩ := w
    cases cr <;> cases co <;> cases ct <;>
      simp [bootstrapPhase, runBootstrap_any_deploy]
  · intro pa
    obtain ⟨cr, ⟨co, ct, cp⟩, bal, r1, r2, rp, al, ts, nu, qd⟩ := w
    cases cr <;> cases co <;> cases ct <;> rfl
  · intro hcr h1 h2 hpa hbal
    rw [mainTrace_resume w cc1 cc2 hcr h1 h2 hbal, hpa]
    simp

/-- C10 witness: a populated cache with no pool address skips bootstrap and
reads pool state at the undefined pool address. -/
theorem c10_bootstrap_gate_witness :
    (bootstrapPhase sampleWorldC10).1.any isDeploy = false ∧
    (bootstrapPhase
        { sampleWorldC10 with
          cache := { sampleWorldC10.cache with poolAddress := some [5] } }).1 =
      (bootstrapPhase sampleWorldC10).1 ∧
    Action.readPool none PoolRead.tickSpacing ∈ (mainTrace sampleWorldC10).1 := by
  have h := c10_bootstrap_gate sampleWorldC10 sampleCacheOne sampleCacheTwo
  exact ⟨h.1.trans rfl, h.2.1 (some [5]),
    h.2.2 rfl rfl rfl rfl (by decide)⟩

end UniswapSetup
